import Mathlib

/-!
Verification development for the sst-webhook-service delivery engine.

The definitions below are a shallow embedding of the TypeScript source:
the webhook registry (`src/core/webhook/webhook.entity.ts`), the queue
consumer (`src/functions/webhook-processor.ts`) and the `Webhook` core
module (create / update / failed / event.retryFailed).  DynamoDB is
modelled as a list of records, SQS queues as lists of messages, and the
JavaScript runtime pieces (`JSON.stringify`, object spread, `Map`,
truthiness of strings) are embedded explicitly.
-/

/-- Model of a JSON value as manipulated by the TypeScript code.  Objects
keep their fields in insertion order, matching JavaScript semantics, and
numbers are modelled as integers (the code never computes with payload
numbers). -/
inductive Json where
  | str (s : String)
  | num (n : Int)
  | jsbool (b : Bool)
  | null
  | arr (elems : List Json)
  | obj (fields : List (String × Json))
deriving Repr

/-- Escapes one character the way `JSON.stringify` does for the characters
the embedding needs (quote and backslash; other characters are emitted
verbatim). -/
def jsonEscapeChar (c : Char) : String :=
  if c = '\"' then "\\\"" else if c = '\\' then "\\\\" else String.singleton c

/-- String-content escaping used by the `JSON.stringify` model. -/
def jsonEscape (s : String) : String :=
  String.join (s.toList.map jsonEscapeChar)

mutual

/-- Model of `JSON.stringify`: compact output, no whitespace, object fields
in insertion order. -/
def Json.stringify : Json → String
  | .str s => "\"" ++ jsonEscape s ++ "\""
  | .num n => toString n
  | .jsbool b => if b then "true" else "false"
  | .null => "null"
  | .arr xs => "[" ++ Json.stringifyList xs ++ "]"
  | .obj fs => "\x7b" ++ Json.stringifyFields fs ++ "\x7d"

/-- Comma-separated serialization of a JSON array's elements. -/
def Json.stringifyList : List Json → String
  | [] => ""
  | [x] => Json.stringify x
  | x :: y :: rest => Json.stringify x ++ "," ++ Json.stringifyList (y :: rest)

/-- Comma-separated serialization of a JSON object's fields. -/
def Json.stringifyFields : List (String × Json) → String
  | [] => ""
  | [(k, v)] => "\"" ++ jsonEscape k ++ "\":" ++ Json.stringify v
  | (k, v) :: f :: rest =>
      "\"" ++ jsonEscape k ++ "\":" ++ Json.stringify v ++ "," ++ Json.stringifyFields (f :: rest)

end

/-- A persisted webhook listener row, as declared by `webhookEntity` in
`webhook.entity.ts` (attributes webhookId, tenantId, url, eventType,
secret, isActive, createdAt, updatedAt). -/
structure WebhookRecord where
  webhookId : String
  tenantId : String
  url : String
  eventType : String
  secret : String
  isActive : Bool
  createdAt : String
  updatedAt : String
deriving Repr, DecidableEq

/-- Embedding of the `byTenantAndEventType` index query: returns the rows
whose partition key `(tenantId, eventType)` matches. -/
def queryByTenantAndEventType (store : List WebhookRecord) (tenantId eventType : String) :
    List WebhookRecord :=
  store.filter fun w => w.tenantId == tenantId && w.eventType == eventType

/-- Embedding of the `.where isActive = true` filter applied to a query
result in `processWebhookDelivery`. -/
def whereIsActive (rows : List WebhookRecord) : List WebhookRecord :=
  rows.filter fun w => w.isActive

/-- Listener matching performed by `processWebhookDelivery` (lines 44-57):
two index queries — exact `(tenantId, eventType)` and wildcard
`(tenantId, "*")` — each restricted to `isActive = true`, concatenated. -/
def matchListeners (store : List WebhookRecord) (tenantId eventType : String) :
    List WebhookRecord :=
  whereIsActive (queryByTenantAndEventType store tenantId eventType)
    ++ whereIsActive (queryByTenantAndEventType store tenantId "*")

theorem mem_matchListeners (store : List WebhookRecord) (T E : String) (w : WebhookRecord) :
    w ∈ matchListeners store T E ↔
      w ∈ store ∧ w.isActive = true ∧ w.tenantId = T ∧ (w.eventType = E ∨ w.eventType = "*") := by
  simp only [matchListeners, whereIsActive, queryByTenantAndEventType, List.mem_append,
    List.mem_filter, Bool.and_eq_true, beq_iff_eq]
  tauto

theorem matchListeners_ids_nodup (store : List WebhookRecord) (T E : String)
    (hE : E ≠ "*") (hids : (store.map WebhookRecord.webhookId).Nodup) :
    ((matchListeners store T E).map WebhookRecord.webhookId).Nodup := by
  have hstore : store.Nodup := List.Nodup.of_map _ hids
  have hinj := (List.nodup_map_iff_inj_on hstore).mp hids
  have hsub1 : (whereIsActive (queryByTenantAndEventType store T E)).Sublist store := by
    exact List.Sublist.trans (List.filter_sublist _) (List.filter_sublist _)
  have hsub2 : (whereIsActive (queryByTenantAndEventType store T "*")).Sublist store := by
    exact List.Sublist.trans (List.filter_sublist _) (List.filter_sublist _)
  rw [matchListeners, List.map_append, List.nodup_append]
  refine ⟨(hsub1.map _).nodup hids, (hsub2.map _).nodup hids, ?_⟩
  intro x hx1 hx2
  obtain ⟨w1, hw1, hw1x⟩ := List.mem_map.mp hx1
  obtain ⟨w2, hw2, hw2x⟩ := List.mem_map.mp hx2
  have he1 : w1.eventType = E := by
    have h := List.mem_filter.mp (List.mem_filter.mp hw1).1
    simp only [Bool.and_eq_true, beq_iff_eq] at h
    exact h.2.2
  have he2 : w2.eventType = "*" := by
    have h := List.mem_filter.mp (List.mem_filter.mp hw2).1
    simp only [Bool.and_eq_true, beq_iff_eq] at h
    exact h.2.2
  have heq : w1 = w2 := hinj w1 (hsub1.mem hw1) w2 (hsub2.mem hw2) (hw1x.trans hw2x.symm)
  exact hE (by rw [← he1, heq, he2])

/-- C1 (amended): for every tenant T and every event type E other than the
wildcard sentinel "*", the listener matching of `processWebhookDelivery`
returns exactly the active listeners registered for (T, E) together with the
active listeners registered for (T, "*"): every returned listener is active
and belongs to tenant T, no other tenant's listener appears, no duplicates
occur (given the store's primary-key uniqueness of webhookId), and every
active listener under (T, E) or (T, "*") is included.  (For E = "*" itself
the two lookups coincide and each active wildcard listener appears twice,
refuting the unrestricted claim — see the counterexample.) -/
theorem c1_match_exact_union (store : List WebhookRecord) (T E : String)
    (hE : E ≠ "*") (hids : (store.map WebhookRecord.webhookId).Nodup) :
    (∀ w, w ∈ matchListeners store T E ↔
        w ∈ store ∧ w.isActive = true ∧ w.tenantId = T ∧
          (w.eventType = E ∨ w.eventType = "*"))
      ∧ ((matchListeners store T E).map WebhookRecord.webhookId).Nodup :=
  ⟨fun w => mem_matchListeners store T E w, matchListeners_ids_nodup store T E hE hids⟩

/-- Concrete four-row store used to witness the matching theorem: an active
exact listener, an active wildcard listener, an inactive exact listener and
an active listener of another tenant. -/
def c1WitnessStore : List WebhookRecord :=
  [ ⟨"w1", "t1", "https://a.example/h1", "order.created", "s1", true, "c1", "u1"⟩,
    ⟨"w2", "t1", "https://a.example/h2", "*", "s2", true, "c2", "u2"⟩,
    ⟨"w3", "t1", "https://a.example/h3", "order.created", "s3", false, "c3", "u3"⟩,
    ⟨"w4", "t2", "https://a.example/h4", "order.created", "s4", true, "c4", "u4"⟩ ]

theorem c1_match_exact_union_witness :
    ("order.created" : String) ≠ "*" ∧
      ((c1WitnessStore.map WebhookRecord.webhookId).Nodup) ∧
      ((∀ w, w ∈ matchListeners c1WitnessStore "t1" "order.created" ↔
          w ∈ c1WitnessStore ∧ w.isActive = true ∧ w.tenantId = "t1" ∧
            (w.eventType = "order.created" ∨ w.eventType = "*"))
        ∧ ((matchListeners c1WitnessStore "t1" "order.created").map
            WebhookRecord.webhookId).Nodup) :=
  ⟨by decide, by decide,
    c1_match_exact_union c1WitnessStore "t1" "order.created" (by decide) (by decide)⟩

/-- The single active wildcard listener of tenant t1 used in the C1
counterexample. -/
def c1CounterRow : WebhookRecord :=
  ⟨"w1", "t1", "https://a.example/h", "*", "s1", true, "c", "u"⟩

/-- Single-row store holding one active wildcard listener of tenant t1. -/
def c1CounterStore : List WebhookRecord := [c1CounterRow]

/-- C1 counterexample: for the event type E = "*" (accepted by event
creation, whose validator only requires a non-empty string), both lookups
hit the same key (t1, "*"), so the concatenation returns the single active
wildcard listener twice — the claimed duplicate-freeness fails. -/
theorem c1_counterexample :
    ((c1CounterStore.map WebhookRecord.webhookId).Nodup) ∧
      matchListeners c1CounterStore "t1" "*" = [c1CounterRow, c1CounterRow] ∧
      ¬ ((matchListeners c1CounterStore "t1" "*").map WebhookRecord.webhookId).Nodup := by
  refine ⟨by decide, by decide, by decide⟩

/-- The `WebhookDeliveryMessage` consumed by the processor: eventId,
tenantId, eventType, an opaque JSON payload, an optional metadata object
and a timestamp.  `metadata` is `Option` because the TypeScript field is
optional and `JSON.stringify` omits an `undefined` field. -/
structure DeliveryMessage where
  eventId : String
  tenantId : String
  eventType : String
  payload : Json
  metadata : Option Json
  timestamp : String

/-- Outcome of one outbound `fetch` POST: an HTTP response with a status
code, or a transport-level error (the promise rejecting). -/
inductive HttpOutcome where
  | response (status : Nat)
  | netError

/-- Classification made by `attemptWebhookDelivery` (lines 115-126): the
delivery succeeds iff the call produced a response with status in
[200, 300); any other status or a transport error makes it throw. -/
def deliverySucceeds (respond : WebhookRecord → DeliveryMessage → HttpOutcome)
    (w : WebhookRecord) (m : DeliveryMessage) : Bool :=
  match respond w m with
  | .response s => decide (200 ≤ s) && decide (s < 300)
  | .netError => false

/-- Embedding of `processWebhookDelivery` (lines 38-87) as its success
predicate: zero matched webhooks is an immediate success (no-op return);
otherwise the function throws — i.e. fails — iff any of the parallel
deliveries was rejected. -/
def processWebhookDelivery (store : List WebhookRecord)
    (respond : WebhookRecord → DeliveryMessage → HttpOutcome) (m : DeliveryMessage) : Bool :=
  let webhooks := matchListeners store m.tenantId m.eventType
  if webhooks.isEmpty then true
  else webhooks.all fun w => deliverySucceeds respond w m

/-- One SQS record of the batch, with its body already parsed into a
well-formed delivery message. -/
structure SqsRecordModel where
  messageId : String
  body : DeliveryMessage

/-- Embedding of the batch `handler` (lines 19-36): each record is
processed independently, and the messageIds of exactly the records whose
processing threw are collected as `batchItemFailures`. -/
def handler (store : List WebhookRecord)
    (respond : WebhookRecord → DeliveryMessage → HttpOutcome)
    (records : List SqsRecordModel) : List String :=
  (records.filter fun r => ! processWebhookDelivery store respond r.body).map
    SqsRecordModel.messageId

theorem processWebhookDelivery_eq_false_iff (store : List WebhookRecord)
    (respond : WebhookRecord → DeliveryMessage → HttpOutcome) (m : DeliveryMessage) :
    processWebhookDelivery store respond m = false ↔
      ∃ w ∈ matchListeners store m.tenantId m.eventType,
        deliverySucceeds respond w m = false := by
  unfold processWebhookDelivery
  by_cases h : (matchListeners store m.tenantId m.eventType).isEmpty
  · rw [List.isEmpty_iff] at h
    simp [h]
  · simp only [if_neg h, List.all_eq_false, Bool.not_eq_true]

/-- C2: for a batch of well-formed queued messages with distinct messageIds,
the partial-failure report of the batch handler contains a record's
messageId iff at least one delivery to a listener matched for that record
failed (non-2xx status or transport error).  In particular a record all of
whose matched listeners answered 2xx is excluded, and a record with zero
matched listeners is a no-op excluded from the report. -/
theorem c2_batch_item_failures (store : List WebhookRecord)
    (respond : WebhookRecord → DeliveryMessage → HttpOutcome)
    (records : List SqsRecordModel) (r : SqsRecordModel)
    (hr : r ∈ records) (hids : (records.map SqsRecordModel.messageId).Nodup) :
    r.messageId ∈ handler store respond records ↔
      ∃ w ∈ matchListeners store r.body.tenantId r.body.eventType,
        deliverySucceeds respond w r.body = false := by
  have hrecs : records.Nodup := List.Nodup.of_map _ hids
  have hinj := (List.nodup_map_iff_inj_on hrecs).mp hids
  rw [← processWebhookDelivery_eq_false_iff]
  constructor
  · intro hmem
    obtain ⟨r', hr', hid⟩ := List.mem_map.mp hmem
    obtain ⟨hr'rec, hproc⟩ := List.mem_filter.mp hr'
    have : r' = r := hinj r' hr'rec r hr hid
    subst this
    simpa using hproc
  · intro hfail
    apply List.mem_map.mpr
    refine ⟨r, List.mem_filter.mpr ⟨hr, ?_⟩, rfl⟩
    simp [hfail]

/-- Two-listener store for the batch-handler witness: the pay.ok listener's
endpoint answers 500, the ship.ok listener's endpoint answers 204. -/
def c2Store : List WebhookRecord :=
  [ ⟨"w1", "t1", "https://a.example/fail", "pay.ok", "s1", true, "c", "u"⟩,
    ⟨"w2", "t1", "https://a.example/ok", "ship.ok", "s2", true, "c", "u"⟩ ]

/-- Response behaviour of the two endpoints in the witness scenario. -/
def c2Respond (w : WebhookRecord) (_ : DeliveryMessage) : HttpOutcome :=
  if w.webhookId == "w1" then .response 500 else .response 204

/-- A well-formed delivery message of type pay.ok for tenant t1. -/
def c2Msg : DeliveryMessage :=
  ⟨"e1", "t1", "pay.ok", Json.obj [], none, "2024-01-01T00:00:00Z"⟩

/-- A one-record batch carrying the witness message. -/
def c2Records : List SqsRecordModel := [⟨"m1", c2Msg⟩]

theorem c2_batch_item_failures_witness :
    (SqsRecordModel.mk "m1" c2Msg) ∈ c2Records ∧
      ((c2Records.map SqsRecordModel.messageId).Nodup) ∧
      ((SqsRecordModel.mk "m1" c2Msg).messageId ∈ handler c2Store c2Respond c2Records ↔
        ∃ w ∈ matchListeners c2Store (SqsRecordModel.mk "m1" c2Msg).body.tenantId
            (SqsRecordModel.mk "m1" c2Msg).body.eventType,
          deliverySucceeds c2Respond w (SqsRecordModel.mk "m1" c2Msg).body = false) :=
  ⟨by simp [c2Records], by decide,
    c2_batch_item_failures c2Store c2Respond c2Records (SqsRecordModel.mk "m1" c2Msg)
      (by simp [c2Records]) (by decide)⟩

/-- The lowercase hexadecimal alphabet emitted by `digest("hex")`. -/
def hexDigits : List Char := "0123456789abcdef".toList

/-- One lowercase hex character for a nibble. -/
def hexDigitChar (n : Nat) : Char := hexDigits.getD (n % 16) '0'

/-- Model of the `digest("hex")` byte-to-text encoding: two lowercase hex
characters per byte, high nibble first. -/
def hexEncode (bytes : List Nat) : String :=
  String.mk (bytes.flatMap fun b => [hexDigitChar (b / 16), hexDigitChar b])

/-- The object literal serialized inside `generateWebhookSignature`
(lines 135-142): exactly the fields eventId, eventType, tenantId, payload,
metadata, timestamp in this order, compactly; an absent metadata is omitted
the way `JSON.stringify` drops an `undefined` field. -/
def signingJson (m : DeliveryMessage) : Json :=
  .obj ([("eventId", .str m.eventId), ("eventType", .str m.eventType),
      ("tenantId", .str m.tenantId), ("payload", m.payload)]
    ++ (match m.metadata with | some md => [("metadata", md)] | none => [])
    ++ [("timestamp", .str m.timestamp)])

/-- The object literal built in `attemptWebhookDelivery` (lines 92-99) and
serialized as the POST body (line 112). -/
def deliveryBodyJson (m : DeliveryMessage) : Json :=
  .obj ([("eventId", .str m.eventId), ("eventType", .str m.eventType),
      ("tenantId", .str m.tenantId), ("payload", m.payload)]
    ++ (match m.metadata with | some md => [("metadata", md)] | none => [])
    ++ [("timestamp", .str m.timestamp)])

/-- Embedding of `generateWebhookSignature` (lines 134-148).  The
`hmacSha256` argument models the external primitive
`crypto.createHmac("sha256", secret).update(payload).digest()` as a byte
sequence; `digest("hex")` is its lowercase hex encoding. -/
def generateWebhookSignature (hmacSha256 : String → String → List Nat)
    (secret : String) (m : DeliveryMessage) : String :=
  hexEncode (hmacSha256 secret (Json.stringify (signingJson m)))

/-- The exact body string POSTed by `attemptWebhookDelivery`. -/
def deliveryRequestBody (m : DeliveryMessage) : String :=
  Json.stringify (deliveryBodyJson m)

theorem hexDigitChar_mem (n : Nat) : hexDigitChar n ∈ hexDigits := by
  have h : n % 16 < hexDigits.length := by
    have h16 : n % 16 < 16 := Nat.mod_lt _ (by norm_num)
    simpa [hexDigits] using h16
  rw [hexDigitChar, List.getD_eq_getElem _ _ h]
  exact List.getElem_mem h

theorem hexEncode_lowercase (bytes : List Nat) :
    ∀ c ∈ (hexEncode bytes).toList, c ∈ hexDigits := by
  intro c hc
  have hc' : c ∈ bytes.flatMap fun b => [hexDigitChar (b / 16), hexDigitChar b] := hc
  obtain ⟨b, _, hb⟩ := List.mem_flatMap.mp hc'
  simp only [List.mem_cons, List.mem_singleton, List.not_mem_nil, or_false] at hb
  rcases hb with h | h <;> · rw [h]; exact hexDigitChar_mem _

/-- C3: the X-Webhook-Signature value equals HMAC-SHA256(secret, P) encoded
as lowercase hex, where P is the fixed-order compact JSON serialization of
exactly the fields eventId, eventType, tenantId, payload, metadata,
timestamp; the same string P is byte-for-byte the POST body; and the
signature is a pure function of (secret, message), hence deterministic. -/
theorem c3_signature_canonical (hmacSha256 : String → String → List Nat)
    (S : String) (m : DeliveryMessage) :
    generateWebhookSignature hmacSha256 S m
        = hexEncode (hmacSha256 S (deliveryRequestBody m))
      ∧ deliveryRequestBody m = Json.stringify (signingJson m)
      ∧ (∀ c ∈ (generateWebhookSignature hmacSha256 S m).toList, c ∈ hexDigits)
      ∧ (∀ S2 m2, S2 = S → m2 = m →
          generateWebhookSignature hmacSha256 S2 m2
            = generateWebhookSignature hmacSha256 S m) := by
  refine ⟨rfl, rfl, hexEncode_lowercase _, ?_⟩
  intro S2 m2 hS hm
  rw [hS, hm]

/-- A fixed stand-in for the external HMAC-SHA256 primitive, used only to
instantiate the signature theorem on concrete data. -/
def c3Hmac (_secret _payload : String) : List Nat := [0, 18, 171, 255]

/-- A concrete delivery message carrying metadata. -/
def c3Msg : DeliveryMessage :=
  ⟨"e9", "t3", "user.created", Json.obj [("userId", Json.str "u1")],
    some (Json.obj [("source", Json.str "api")]), "2024-02-02T00:00:00Z"⟩

theorem c3_signature_canonical_witness :
    generateWebhookSignature c3Hmac "topsecret" c3Msg
        = hexEncode (c3Hmac "topsecret" (deliveryRequestBody c3Msg))
      ∧ deliveryRequestBody c3Msg = Json.stringify (signingJson c3Msg)
      ∧ (∀ c ∈ (generateWebhookSignature c3Hmac "topsecret" c3Msg).toList, c ∈ hexDigits)
      ∧ (∀ S2 m2, S2 = "topsecret" → m2 = c3Msg →
          generateWebhookSignature c3Hmac S2 m2
            = generateWebhookSignature c3Hmac "topsecret" c3Msg) :=
  c3_signature_canonical c3Hmac "topsecret" c3Msg

/-- One message of the dead-letter queue, with its JSON body already parsed
(the inspect and redrive code skips unparseable bodies; the claims concern
well-formed entries).  `receiptHandle` is the SQS receipt token. -/
structure DlqEntry where
  messageId : String
  eventId : String
  tenantId : String
  eventType : String
  payload : Json
  metadata : List (String × Json)
  timestamp : String
  receiptHandle : String

/-- The record pushed into `failedEvents` by `Webhook.failed`
(lines 372-382), including the constant failure reason. -/
structure FailedEventView where
  messageId : String
  eventId : String
  tenantId : String
  eventType : String
  payload : Json
  metadata : List (String × Json)
  timestamp : String
  receiptHandle : String
  failureReason : String

/-- Projection of a dead-letter entry into the inspect output. -/
def toFailedEventView (e : DlqEntry) : FailedEventView :=
  ⟨e.messageId, e.eventId, e.tenantId, e.eventType, e.payload, e.metadata,
    e.timestamp, e.receiptHandle, "Max retries exceeded"⟩

/-- Result of one `Webhook.failed` call, instrumented with the number of
messages the receive returned and the receipt handles it deleted. -/
structure InspectResult where
  failedEvents : List FailedEventView
  hasMore : Bool
  readCount : Nat
  deletedHandles : List String

/-- Embedding of `Webhook.failed` (lines 323-403): one
`ReceiveMessageCommand` with `MaxNumberOfMessages = min(limit, 10)` is
modelled as taking that many entries off the front of the dead-letter
queue; entries of the requested tenant are collected in order, and — only
when `deleteProcessed` is set — each collected entry with a truthy receipt
handle is deleted.  `hasMore` is the source's comparison
`response.Messages.length === 10`. -/
def inspectFailed (dlq : List DlqEntry) (tenantId : String) (limit : Nat)
    (deleteProcessed : Bool) : InspectResult :=
  let received := dlq.take (min limit 10)
  if received.isEmpty then
    { failedEvents := [], hasMore := false, readCount := 0, deletedHandles := [] }
  else
    let matching := received.filter fun e => e.tenantId == tenantId
    { failedEvents := matching.map toFailedEventView
      hasMore := received.length == 10
      readCount := received.length
      deletedHandles :=
        if deleteProcessed then
          (matching.filter fun e => e.receiptHandle != "").map DlqEntry.receiptHandle
        else [] }

/-- C6 (amended): `hasMore` is true exactly when the receive returned 10
messages — the transport page-size cap — regardless of the requested page
size min(limit, 10); for limit < 10 a full page of min(limit, 10) entries
still yields hasMore = false, refuting the claim as stated. -/
theorem c6_hasMore_iff_ten_read (dlq : List DlqEntry) (tenantId : String) (limit : Nat)
    (deleteProcessed : Bool) :
    (inspectFailed dlq tenantId limit deleteProcessed).hasMore = true ↔
      (inspectFailed dlq tenantId limit deleteProcessed).readCount = 10 := by
  unfold inspectFailed
  by_cases h : (dlq.take (min limit 10)).isEmpty
  · simp [h]
  · simp [h, beq_iff_eq]

/-- A dead-letter entry of tenant t1 with index-tagged identifiers. -/
def c6DlqEntry (i : String) : DlqEntry :=
  ⟨"m" ++ i, "e" ++ i, "t1", "pay.ok", Json.obj [], [], "ts", "rh" ++ i⟩

/-- Six dead-letter entries of tenant t1. -/
def c6Dlq : List DlqEntry :=
  [c6DlqEntry "1", c6DlqEntry "2", c6DlqEntry "3",
    c6DlqEntry "4", c6DlqEntry "5", c6DlqEntry "6"]

/-- C6 counterexample: with limit = 5 and six dead-letter entries, a full
page of min(5, 10) = 5 entries is read and an entry remains unscanned, yet
hasMore = false — `Webhook.failed` compares the number read against the
literal 10, not against the requested page size min(limit, 10). -/
theorem c6_counterexample :
    (inspectFailed c6Dlq "t1" 5 false).readCount = min 5 10
      ∧ c6Dlq.length > (inspectFailed c6Dlq "t1" 5 false).readCount
      ∧ (inspectFailed c6Dlq "t1" 5 false).hasMore = false := by
  refine ⟨by decide, by decide, by decide⟩

theorem inspectFailed_deletedHandles_false (dlq : List DlqEntry) (tenantId : String)
    (limit : Nat) : (inspectFailed dlq tenantId limit false).deletedHandles = [] := by
  unfold inspectFailed
  by_cases h : (dlq.take (min limit 10)).isEmpty <;> simp [h]

theorem inspectFailed_deletedHandles_true (dlq : List DlqEntry) (tenantId : String)
    (limit : Nat) :
    (inspectFailed dlq tenantId limit true).deletedHandles
      = (((dlq.take (min limit 10)).filter (fun e => e.tenantId == tenantId)).filter
          (fun e => e.receiptHandle != "")).map DlqEntry.receiptHandle := by
  unfold inspectFailed
  by_cases h : (dlq.take (min limit 10)).isEmpty
  · rw [List.isEmpty_iff] at h
    simp [h]
  · simp [h]

theorem inspectFailed_failedEvents (dlq : List DlqEntry) (tenantId : String)
    (limit : Nat) (deleteProcessed : Bool) :
    (inspectFailed dlq tenantId limit deleteProcessed).failedEvents
      = ((dlq.take (min limit 10)).filter (fun e => e.tenantId == tenantId)).map
          toFailedEventView := by
  unfold inspectFailed
  by_cases h : (dlq.take (min limit 10)).isEmpty
  · rw [List.isEmpty_iff] at h
    simp [h]
  · simp [h]

/-- C7: inspect with deleteProcessed = false deletes nothing from the
dead-letter set; with deleteProcessed = true it deletes exactly the receipt
handles of the entries returned in the result — the read entries belonging
to the requested tenant — and a read entry of another tenant is never
deleted.  Hypotheses: every entry carries a non-empty receipt token and
receipt handles are unique, as the transport guarantees. -/
theorem c7_inspect_frame (dlq : List DlqEntry) (tenantId : String) (limit : Nat)
    (hrh : ∀ e ∈ dlq, e.receiptHandle ≠ "")
    (hnd : (dlq.map DlqEntry.receiptHandle).Nodup) :
    (inspectFailed dlq tenantId limit false).deletedHandles = []
      ∧ (inspectFailed dlq tenantId limit true).deletedHandles
          = (inspectFailed dlq tenantId limit true).failedEvents.map
              FailedEventView.receiptHandle
      ∧ ∀ e ∈ dlq.take (min limit 10), e.tenantId ≠ tenantId →
          e.receiptHandle ∉ (inspectFailed dlq tenantId limit true).deletedHandles := by
  have htake : (dlq.take (min limit 10)).Sublist dlq := List.take_sublist _ _
  have hfilter : ((dlq.take (min limit 10)).filter
      fun e => e.tenantId == tenantId).Sublist dlq :=
    List.Sublist.trans (List.filter_sublist _) htake
  have hmatchrh : ((dlq.take (min limit 10)).filter
        (fun e => e.tenantId == tenantId)).filter (fun e => e.receiptHandle != "")
      = (dlq.take (min limit 10)).filter (fun e => e.tenantId == tenantId) := by
    apply List.filter_eq_self.mpr
    intro e he
    have : e.receiptHandle ≠ "" := hrh e (hfilter.mem he)
    simpa [bne_iff_ne] using this
  refine ⟨inspectFailed_deletedHandles_false dlq tenantId limit, ?_, ?_⟩
  · rw [inspectFailed_deletedHandles_true, inspectFailed_failedEvents, hmatchrh,
      List.map_map]
    rfl
  · intro e he hne hmem
    rw [inspectFailed_deletedHandles_true, hmatchrh] at hmem
    obtain ⟨e', he', heq⟩ := List.mem_map.mp hmem
    have he'mem := List.mem_filter.mp he'
    have htenant : e'.tenantId = tenantId := by simpa [beq_iff_eq] using he'mem.2
    have hinj := (List.nodup_map_iff_inj_on (List.Nodup.of_map _ hnd)).mp hnd
    have : e' = e := hinj e' (hfilter.mem he') e (htake.mem he) heq
    rw [this] at htenant
    exact hne htenant

/-- Two dead-letter entries of different tenants with distinct receipt
handles. -/
def c7Dlq : List DlqEntry :=
  [ ⟨"m1", "e1", "t1", "pay.ok", Json.obj [], [], "ts1", "rh1"⟩,
    ⟨"m2", "e2", "t2", "pay.ok", Json.obj [], [], "ts2", "rh2"⟩ ]

theorem c7_inspect_frame_witness :
    (inspectFailed c7Dlq "t1" 10 false).deletedHandles = []
      ∧ (inspectFailed c7Dlq "t1" 10 true).deletedHandles
          = (inspectFailed c7Dlq "t1" 10 true).failedEvents.map
              FailedEventView.receiptHandle
      ∧ ∀ e ∈ c7Dlq.take (min 10 10), e.tenantId ≠ "t1" →
          e.receiptHandle ∉ (inspectFailed c7Dlq "t1" 10 true).deletedHandles :=
  c7_inspect_frame c7Dlq "t1" 10 (by decide) (by decide)

/-- Input of `Webhook.update` (lines 280-287): mandatory webhookId and
three optional patch fields. -/
structure UpdateInput where
  webhookId : String
  url : Option String
  eventType : Option String
  isActive : Option Bool

/-- Embedding of `findById` (lines 234-246): first row of the
`byWebhookId` query. -/
def findById (store : List WebhookRecord) (webhookId : String) : Option WebhookRecord :=
  (store.filter fun w => w.webhookId == webhookId).head?

/-- Embedding of `Webhook.update` (lines 280-307) with the ElectroDB
semantics of the entity declared in `webhook.entity.ts`: supplied fields
are collected into the patch; when the patch is empty the found record is
returned without any write; otherwise exactly the patched attributes are
rewritten.  The updatedAt attribute's set callback (entity lines 51-56)
has no `watch` clause, so ElectroDB fires it only when updatedAt itself is
among the supplied attributes — `update` never supplies it, hence
updatedAt keeps its stored value on every update.  Returns the resulting
store and the record involved, or none when the id is unknown (not-found
error). -/
def updateWebhook (store : List WebhookRecord) (inp : UpdateInput) :
    Option (List WebhookRecord × WebhookRecord) :=
  match findById store inp.webhookId with
  | none => none
  | some w =>
      if inp.url.isNone && inp.eventType.isNone && inp.isActive.isNone then
        some (store, w)
      else
        let w' : WebhookRecord :=
          { w with
            url := inp.url.getD w.url
            eventType := inp.eventType.getD w.eventType
            isActive := inp.isActive.getD w.isActive }
        some (store.map fun v => if v.webhookId == inp.webhookId then w' else v, w')

/-- A stored webhook row last updated at the beginning of 2024. -/
def c8Row : WebhookRecord :=
  ⟨"w1", "t1", "https://a.example/h", "pay.ok", "s", true,
    "2024-01-01T00:00:00Z", "2024-01-01T00:00:00Z"⟩

/-- The row after an update supplying only a new url: every other field,
updatedAt included, keeps its stored value. -/
def c8RowPatched : WebhookRecord :=
  ⟨"w1", "t1", "https://b.example/h", "pay.ok", "s", true,
    "2024-01-01T00:00:00Z", "2024-01-01T00:00:00Z"⟩

/-- C8 counterexample: no update call touches updatedAt.  A call supplying
none of the optional fields returns early
(`Object.keys(updates).length === 0`) without any write, and a call
supplying a new url rewrites only the patched attributes — the entity's
updatedAt set callback has no `watch: "*"`, so it never fires for an
update that does not supply updatedAt.  In both runs the stored row keeps
updatedAt = "2024-01-01T00:00:00Z", refuting the clause that every update
call sets updatedAt to the time of the update. -/
theorem c8_counterexample :
    updateWebhook [c8Row] ⟨"w1", none, none, none⟩ = some ([c8Row], c8Row)
      ∧ updateWebhook [c8Row] ⟨"w1", some "https://b.example/h", none, none⟩
          = some ([c8RowPatched], c8RowPatched)
      ∧ c8Row.updatedAt = "2024-01-01T00:00:00Z"
      ∧ c8RowPatched.updatedAt = "2024-01-01T00:00:00Z" := by
  refine ⟨by decide, by decide, by decide, by decide⟩

/-- C8 (amended): update is a partial patch on an existing webhook — every
supplied optional field replaces the stored value, every unsupplied field
keeps its prior value, other rows are untouched — and updatedAt is never
touched: the updatedAt set callback of the entity lacks `watch: "*"` and
so only fires when updatedAt itself is supplied, which update never does;
a call supplying none of the optional fields performs no write at all. -/
theorem c8_update_partial_patch (store : List WebhookRecord)
    (inp : UpdateInput) (w : WebhookRecord)
    (hfind : findById store inp.webhookId = some w) :
    (¬(inp.url = none ∧ inp.eventType = none ∧ inp.isActive = none) →
        ∃ w', updateWebhook store inp
            = some (store.map fun v => if v.webhookId == inp.webhookId then w' else v, w')
          ∧ w'.url = inp.url.getD w.url
          ∧ w'.eventType = inp.eventType.getD w.eventType
          ∧ w'.isActive = inp.isActive.getD w.isActive
          ∧ w'.webhookId = w.webhookId ∧ w'.tenantId = w.tenantId
          ∧ w'.secret = w.secret ∧ w'.createdAt = w.createdAt
          ∧ w'.updatedAt = w.updatedAt)
      ∧ ((inp.url = none ∧ inp.eventType = none ∧ inp.isActive = none) →
        updateWebhook store inp = some (store, w)) := by
  constructor
  · intro hsome
    have hcond : (inp.url.isNone && inp.eventType.isNone && inp.isActive.isNone) = false := by
      rcases hu : inp.url with _ | u <;> rcases he : inp.eventType with _ | e <;>
        rcases ha : inp.isActive with _ | a <;>
        simp_all [Option.isNone]
    refine ⟨{ w with
        url := inp.url.getD w.url
        eventType := inp.eventType.getD w.eventType
        isActive := inp.isActive.getD w.isActive }, ?_, rfl, rfl, rfl, rfl, rfl, rfl, rfl, rfl⟩
    unfold updateWebhook
    rw [hfind, hcond]
    simp
  · intro ⟨hu, he, ha⟩
    unfold updateWebhook
    rw [hfind, hu, he, ha]
    simp [Option.isNone]

/-- Store and input for the update witness: url and isActive supplied,
eventType left out. -/
def c8WitnessInput : UpdateInput := ⟨"w1", some "https://b.example/h", none, some false⟩

theorem c8_update_partial_patch_witness :
    findById [c8Row] c8WitnessInput.webhookId = some c8Row ∧
      ((¬(c8WitnessInput.url = none ∧ c8WitnessInput.eventType = none ∧
            c8WitnessInput.isActive = none) →
          ∃ w', updateWebhook [c8Row] c8WitnessInput
              = some ([c8Row].map fun v =>
                  if v.webhookId == c8WitnessInput.webhookId then w' else v, w')
            ∧ w'.url = c8WitnessInput.url.getD c8Row.url
            ∧ w'.eventType = c8WitnessInput.eventType.getD c8Row.eventType
            ∧ w'.isActive = c8WitnessInput.isActive.getD c8Row.isActive
            ∧ w'.webhookId = c8Row.webhookId ∧ w'.tenantId = c8Row.tenantId
            ∧ w'.secret = c8Row.secret ∧ w'.createdAt = c8Row.createdAt
            ∧ w'.updatedAt = c8Row.updatedAt)
        ∧ ((c8WitnessInput.url = none ∧ c8WitnessInput.eventType = none ∧
              c8WitnessInput.isActive = none) →
          updateWebhook [c8Row] c8WitnessInput = some ([c8Row], c8Row))) :=
  ⟨by decide, c8_update_partial_patch [c8Row] c8WitnessInput c8Row (by decide)⟩

/-- Embedding of `Webhook.create` (lines 187-232).  `randomHex` models the
`crypto.randomBytes(32).toString("hex")` value generated once per call;
`newIds` the `createId()` values, one per event type; `now` the creation
time.  The JavaScript expression `secret || randomHex` treats an absent or
empty supplied secret as falsy.  Per event type, a webhook with the same
url already registered for (tenantId, eventType) aborts the whole call
with an input error (`none`); otherwise one row per event type is created,
all carrying the same secret. -/
def createWebhooks (store : List WebhookRecord) (randomHex : String)
    (newIds : List String) (now : String) (tenantId url : String)
    (eventTypes : List String) (secret : Option String) :
    Option (List WebhookRecord) :=
  let webhookSecret :=
    match secret with
    | some s => if s == "" then randomHex else s
    | none => randomHex
  if eventTypes.any (fun ty =>
      !((queryByTenantAndEventType store tenantId ty).filter
          (fun w => w.url == url)).isEmpty) then
    none
  else
    some ((eventTypes.zip newIds).map fun p =>
      ⟨p.2, tenantId, url, p.1, webhookSecret, true, now, now⟩)

/-- The secret actually stored by `createWebhooks`. -/
def effectiveSecret (randomHex : String) (secret : Option String) : String :=
  match secret with
  | some s => if s == "" then randomHex else s
  | none => randomHex

/-- C10 (amended): all webhooks created by one `create` call carry the same
secret — the caller-supplied secret when a non-empty one was given,
otherwise the hex string generated once for the whole call and reused for
every event type in the list; distinct event-type registrations of one
call never receive distinct secrets.  (A supplied empty-string secret is
falsy in `secret || crypto.randomBytes(32).toString("hex")` and is
replaced by the generated value, refuting the unrestricted
caller-supplied clause.) -/
theorem c10_create_shared_secret (store : List WebhookRecord) (randomHex : String)
    (newIds : List String) (now tenantId url : String) (eventTypes : List String)
    (secret : Option String) (created : List WebhookRecord)
    (hok : createWebhooks store randomHex newIds now tenantId url eventTypes secret
      = some created) :
    (∀ w ∈ created, w.secret = effectiveSecret randomHex secret)
      ∧ (∀ w1 ∈ created, ∀ w2 ∈ created, w1.secret = w2.secret)
      ∧ (∀ s, secret = some s → s ≠ "" → ∀ w ∈ created, w.secret = s)
      ∧ (secret = none → ∀ w ∈ created, w.secret = randomHex) := by
  have hall : ∀ w ∈ created, w.secret = effectiveSecret randomHex secret := by
    intro w hw
    unfold createWebhooks at hok
    by_cases hdup : eventTypes.any (fun ty =>
        !((queryByTenantAndEventType store tenantId ty).filter
            (fun w => w.url == url)).isEmpty)
    · rw [if_pos hdup] at hok
      exact absurd hok (by simp)
    · rw [if_neg hdup] at hok
      have hcreated := (Option.some_inj.mp hok).symm
      rw [hcreated] at hw
      obtain ⟨p, _, hp⟩ := List.mem_map.mp hw
      rw [← hp]
      rfl
  refine ⟨hall, ?_, ?_, ?_⟩
  · intro w1 h1 w2 h2
    rw [hall w1 h1, hall w2 h2]
  · intro s hs hne w hw
    rw [hall w hw, hs, effectiveSecret, if_neg (by simpa using hne)]
  · intro hs w hw
    rw [hall w hw, hs]
    rfl

/-- C10 counterexample: a create call for two event types supplying the
(zod-valid) empty string as secret stores the generated hex value, not the
caller-supplied secret. -/
theorem c10_counterexample :
    createWebhooks [] "4fe0c1a2" ["id1", "id2"] "now" "t1" "https://a.example/h"
        ["a.b", "c.d"] (some "")
      = some
        [ ⟨"id1", "t1", "https://a.example/h", "a.b", "4fe0c1a2", true, "now", "now"⟩,
          ⟨"id2", "t1", "https://a.example/h", "c.d", "4fe0c1a2", true, "now", "now"⟩ ]
      ∧ ("4fe0c1a2" : String) ≠ "" := by
  refine ⟨by decide, by decide⟩

/-- Concrete successful creation for the witness: fresh store, two event
types, caller-supplied non-empty secret. -/
def c10Created : List WebhookRecord :=
  [ ⟨"id1", "t1", "https://a.example/h", "a.b", "supplied", true, "now", "now"⟩,
    ⟨"id2", "t1", "https://a.example/h", "c.d", "supplied", true, "now", "now"⟩ ]

theorem c10_create_shared_secret_witness :
    createWebhooks [] "4fe0c1a2" ["id1", "id2"] "now" "t1" "https://a.example/h"
        ["a.b", "c.d"] (some "supplied") = some c10Created
      ∧ ((∀ w ∈ c10Created, w.secret = effectiveSecret "4fe0c1a2" (some "supplied"))
        ∧ (∀ w1 ∈ c10Created, ∀ w2 ∈ c10Created, w1.secret = w2.secret)
        ∧ (∀ s, (some "supplied" : Option String) = some s → s ≠ "" →
            ∀ w ∈ c10Created, w.secret = s)
        ∧ ((some "supplied" : Option String) = none →
            ∀ w ∈ c10Created, w.secret = "4fe0c1a2")) :=
  ⟨by decide,
    c10_create_shared_secret [] "4fe0c1a2" ["id1", "id2"] "now" "t1"
      "https://a.example/h" ["a.b", "c.d"] (some "supplied") c10Created (by decide)⟩

/-- The reconstructed message pushed back onto the main queue by
`retryFailed` (lines 556-567). -/
structure RetryMessage where
  eventId : String
  tenantId : String
  eventType : String
  payload : Json
  metadata : List (String × Json)
  timestamp : String

/-- JavaScript object-literal update: a later key overwrites the value in
place when already present, else is appended — the semantics of
`\x7b ...spread, key: value \x7d`. -/
def jsObjSet (fs : List (String × Json)) (k : String) (v : Json) : List (String × Json) :=
  if fs.any (fun p => p.1 == k) then fs.map (fun p => if p.1 == k then (k, v) else p)
  else fs ++ [(k, v)]

/-- The retry message reconstructed from a dead-letter entry: original
eventId, tenantId, eventType and payload; metadata extended with
retryAttempt = true and originalFailureTime = the original timestamp; and
a fresh top-level timestamp. -/
def retryMessage (e : DlqEntry) (now : String) : RetryMessage :=
  ⟨e.eventId, e.tenantId, e.eventType, e.payload,
    jsObjSet (jsObjSet e.metadata "retryAttempt" (.jsbool true))
      "originalFailureTime" (.str e.timestamp),
    now⟩

/-- The JavaScript `Map` from eventId to found dead-letter message, as an
insertion-ordered association list. -/
abbrev FoundMap := List (String × DlqEntry)

/-- `Map.set`: overwrite in place when the key exists, else append. -/
def mapSet (m : FoundMap) (k : String) (v : DlqEntry) : FoundMap :=
  if m.any (fun p => p.1 == k) then m.map (fun p => if p.1 == k then (k, v) else p)
  else m ++ [(k, v)]

/-- `Map.get`. -/
def mapGet (m : FoundMap) (k : String) : Option DlqEntry :=
  (m.find? (fun p => p.1 == k)).map Prod.snd

/-- One page scan of the polling loop (lines 522-538): each received
message whose eventId is among the requested ids is recorded in the found
map under its eventId. -/
def scanPage (eventIds : List String) (found : FoundMap) (msgs : List DlqEntry) : FoundMap :=
  msgs.foldl
    (fun acc msg => if eventIds.contains msg.eventId then mapSet acc msg.eventId msg else acc)
    found

/-- The i-th `ReceiveMessageCommand` of the polling loop with
`MaxNumberOfMessages = 10`: models SQS visibility timeouts — each receive
surfaces the next up-to-10 not-yet-seen messages of the dead-letter
queue. -/
def receivePage (dlq : List DlqEntry) (attempt : Nat) : List DlqEntry :=
  (dlq.drop (10 * attempt)).take 10

/-- `maxReceiveAttempts` of line 502. -/
def maxReceiveAttempts : Nat := 10

/-- The polling loop of lines 507-541, with the remaining attempt budget as
the structural fuel (`fuel = maxReceiveAttempts - attempt`) and an
instrumentation counter of performed receives.  The loop runs while fewer
events are found than were requested and the budget allows, and breaks as
soon as a receive returns no messages. -/
def pollGo (dlq : List DlqEntry) (eventIds : List String) (fuel attempt : Nat)
    (found : FoundMap) (receives : Nat) : FoundMap × Nat :=
  match fuel with
  | 0 => (found, receives)
  | Nat.succ fuel' =>
      if found.length < eventIds.length then
        let msgs := receivePage dlq attempt
        if msgs.isEmpty then (found, receives + 1)
        else pollGo dlq eventIds fuel' (attempt + 1) (scanPage eventIds found msgs)
          (receives + 1)
      else (found, receives)

/-- The complete DLQ polling phase of `retryFailed`: found map and number
of receive calls performed. -/
def pollDlq (dlq : List DlqEntry) (eventIds : List String) : FoundMap × Nat :=
  pollGo dlq eventIds maxReceiveAttempts 0 [] 0

/-- An SQS side effect of the retry phase, tagged with the event id it was
performed for: a send to the main queue (ok = whether it succeeded) or a
delete of a dead-letter entry by receipt handle. -/
inductive SqsAct where
  | send (eventId : String) (msg : RetryMessage) (ok : Bool)
  | del (eventId : String) (receiptHandle : String) (ok : Bool)

/-- The event id an action was performed for. -/
def SqsAct.actId : SqsAct → String
  | .send id _ _ => id
  | .del id _ _ => id

/-- Accumulated outcome of the retry phase: the three report lists, the
messages that reached the main queue, the receipt handles removed from the
dead-letter queue, and the ordered trace of SQS side effects. -/
structure RetryAcc where
  retriedEvents : List String
  failedRetries : List String
  notFoundEvents : List String
  mainQueue : List RetryMessage
  deletedHandles : List String
  trace : List SqsAct

/-- Componentwise concatenation of retry outcomes. -/
def RetryAcc.append (a b : RetryAcc) : RetryAcc :=
  ⟨a.retriedEvents ++ b.retriedEvents, a.failedRetries ++ b.failedRetries,
    a.notFoundEvents ++ b.notFoundEvents, a.mainQueue ++ b.mainQueue,
    a.deletedHandles ++ b.deletedHandles, a.trace ++ b.trace⟩

/-- Processing of one requested event id (lines 544-602).  `sendFails id`
models the `SendMessageCommand` for that event throwing; `deleteFails rh`
models the `DeleteMessageCommand` for that receipt handle throwing; both
are caught by the surrounding try, sending the id to `failedRetries`.  An
id absent from the found map goes to `notFoundEvents` with no side
effects.  The delete is attempted only when the send succeeded and the
receipt handle is truthy; a send that succeeded leaves the message on the
main queue even when the subsequent delete fails. -/
def processRetryOne (found : FoundMap) (sendFails : String → Bool)
    (deleteFails : String → Bool) (now : String) (eventId : String) : RetryAcc :=
  match mapGet found eventId with
  | none => ⟨[], [], [eventId], [], [], []⟩
  | some e =>
      let msg := retryMessage e now
      if sendFails eventId then
        ⟨[], [eventId], [], [], [], [.send eventId msg false]⟩
      else if e.receiptHandle != "" then
        if deleteFails e.receiptHandle then
          ⟨[], [eventId], [], [msg], [],
            [.send eventId msg true, .del eventId e.receiptHandle false]⟩
        else
          ⟨[eventId], [], [], [msg], [e.receiptHandle],
            [.send eventId msg true, .del eventId e.receiptHandle true]⟩
      else
        ⟨[eventId], [], [], [msg], [], [.send eventId msg true]⟩

/-- The retry loop over the requested ids, in order. -/
def retryFailedLoop (found : FoundMap) (sendFails deleteFails : String → Bool)
    (now : String) : List String → RetryAcc
  | [] => ⟨[], [], [], [], [], []⟩
  | id :: rest =>
      RetryAcc.append (processRetryOne found sendFails deleteFails now id)
        (retryFailedLoop found sendFails deleteFails now rest)

/-- Embedding of `Webhook.event.retryFailed` (lines 486-611): bounded DLQ
polling followed by the per-id retry phase.  Returns the accumulated
outcome and the number of receive calls the polling performed. -/
def retryFailed (dlq : List DlqEntry) (sendFails deleteFails : String → Bool)
    (now : String) (eventIds : List String) : RetryAcc × Nat :=
  let polled := pollDlq dlq eventIds
  (retryFailedLoop polled.1 sendFails deleteFails now eventIds, polled.2)

theorem pollGo_receives_le (dlq : List DlqEntry) (eventIds : List String) :
    ∀ (fuel attempt : Nat) (found : FoundMap) (receives : Nat),
      (pollGo dlq eventIds fuel attempt found receives).2 ≤ receives + fuel := by
  intro fuel
  induction fuel with
  | zero => intro attempt found receives; simp [pollGo]
  | succ fuel ih =>
      intro attempt found receives
      simp only [pollGo]
      by_cases h : found.length < eventIds.length
      · rw [if_pos h]
        by_cases he : (receivePage dlq attempt).isEmpty
        · rw [if_pos he]
          simp
        · rw [if_neg he]
          have := ih (attempt + 1) (scanPage eventIds found (receivePage dlq attempt))
            (receives + 1)
          omega
      · rw [if_neg h]
        simp

theorem pollGo_stops_when_found (dlq : List DlqEntry) (eventIds : List String)
    (fuel attempt : Nat) (found : FoundMap) (receives : Nat)
    (h : eventIds.length ≤ found.length) :
    pollGo dlq eventIds fuel attempt found receives = (found, receives) := by
  cases fuel <;> simp [pollGo, Nat.not_lt.mpr h]

/-- C9: the redrive polling terminates within the fixed budget — the model
is a total function whose receive counter never exceeds
maxReceiveAttempts = 10 for any dead-letter content and any requested ids;
the loop stops after a single receive when the dead-letter queue yields no
messages, and performs no receive at all once as many events are found as
were requested. -/
theorem c9_redrive_polling_bounded (dlq : List DlqEntry) (eventIds : List String)
    (sendFails deleteFails : String → Bool) (now : String) :
    (retryFailed dlq sendFails deleteFails now eventIds).2 ≤ maxReceiveAttempts
      ∧ (receivePage dlq 0 = [] →
          (retryFailed dlq sendFails deleteFails now eventIds).2 ≤ 1)
      ∧ (∀ fuel attempt (found : FoundMap) receives, eventIds.length ≤ found.length →
          pollGo dlq eventIds fuel attempt found receives = (found, receives)) := by
  refine ⟨?_, ?_, fun fuel attempt found receives h =>
    pollGo_stops_when_found dlq eventIds fuel attempt found receives h⟩
  · have := pollGo_receives_le dlq eventIds maxReceiveAttempts 0 [] 0
    simpa [retryFailed, pollDlq] using this
  · intro hempty
    show (pollDlq dlq eventIds).2 ≤ 1
    unfold pollDlq maxReceiveAttempts
    simp only [pollGo]
    by_cases h : ([] : FoundMap).length < eventIds.length
    · rw [if_pos h, hempty]
      simp
    · rw [if_neg h]
      omega

theorem c9_redrive_polling_bounded_witness :
    (retryFailed c6Dlq (fun _ => false) (fun _ => false) "now" ["e1"]).2
        ≤ maxReceiveAttempts
      ∧ (retryFailed [] (fun _ => false) (fun _ => false) "now" ["e1"]).2 ≤ 1
      ∧ pollGo c6Dlq ["e1"] 10 0 [("e1", c6DlqEntry "1")] 2
          = ([("e1", c6DlqEntry "1")], 2) :=
  ⟨(c9_redrive_polling_bounded c6Dlq ["e1"] (fun _ => false) (fun _ => false) "now").1,
    (c9_redrive_polling_bounded [] ["e1"] (fun _ => false) (fun _ => false) "now").2.1 rfl,
    (c9_redrive_polling_bounded c6Dlq ["e1"] (fun _ => false) (fun _ => false) "now").2.2
      10 0 [("e1", c6DlqEntry "1")] 2 (by decide)⟩

/-- Whether one requested id ends in `retriedEvents`: found, the send
succeeded, and either the receipt handle is falsy (delete skipped) or the
delete succeeded. -/
def isRetriedOutcome (found : FoundMap) (sendFails deleteFails : String → Bool)
    (id : String) : Bool :=
  match mapGet found id with
  | none => false
  | some e => !sendFails id && (e.receiptHandle == "" || !deleteFails e.receiptHandle)

/-- Whether one requested id ends in `failedRetries`: found, and either the
send threw or the attempted delete threw. -/
def isFailedOutcome (found : FoundMap) (sendFails deleteFails : String → Bool)
    (id : String) : Bool :=
  match mapGet found id with
  | none => false
  | some e => sendFails id || (e.receiptHandle != "" && deleteFails e.receiptHandle)

/-- The message one requested id contributes to the main queue: present iff
found and the send succeeded. -/
def pushedMessage (found : FoundMap) (sendFails : String → Bool) (now : String)
    (id : String) : Option RetryMessage :=
  match mapGet found id with
  | none => none
  | some e => if sendFails id then none else some (retryMessage e now)

/-- The receipt handle one requested id removes from the dead-letter
queue: present iff found, the send succeeded, the handle is truthy and the
delete succeeded. -/
def removedHandle (found : FoundMap) (sendFails deleteFails : String → Bool)
    (id : String) : Option String :=
  match mapGet found id with
  | none => none
  | some e =>
      if !sendFails id && (e.receiptHandle != "" && !deleteFails e.receiptHandle) then
        some e.receiptHandle
      else none

theorem filter_cons_append {α : Type} (p : α → Bool) (x : α) (xs : List α) :
    (x :: xs).filter p = (if p x then [x] else []) ++ xs.filter p := by
  by_cases h : p x <;> simp [h]

theorem filterMap_cons_append {α β : Type} (f : α → Option β) (x : α) (xs : List α) :
    (x :: xs).filterMap f = (f x).toList ++ xs.filterMap f := by
  cases h : f x <;> simp [h]

theorem processRetryOne_spec (found : FoundMap) (sendFails deleteFails : String → Bool)
    (now : String) (id : String) :
    (processRetryOne found sendFails deleteFails now id).retriedEvents
        = (if isRetriedOutcome found sendFails deleteFails id then [id] else [])
      ∧ (processRetryOne found sendFails deleteFails now id).failedRetries
          = (if isFailedOutcome found sendFails deleteFails id then [id] else [])
      ∧ (processRetryOne found sendFails deleteFails now id).notFoundEvents
          = (if (mapGet found id).isNone then [id] else [])
      ∧ (processRetryOne found sendFails deleteFails now id).mainQueue
          = (pushedMessage found sendFails now id).toList
      ∧ (processRetryOne found sendFails deleteFails now id).deletedHandles
          = (removedHandle found sendFails deleteFails id).toList := by
  unfold processRetryOne isRetriedOutcome isFailedOutcome pushedMessage removedHandle
  rcases hm : mapGet found id with _ | e
  · simp
  · by_cases hs : sendFails id
    · simp [hs]
    · by_cases hr : e.receiptHandle == ""
      · have hr' : (e.receiptHandle != "") = false := by simp_all
        simp [hs, hr, hr']
      · have hr' : (e.receiptHandle != "") = true := by simp_all
        have hrne : ¬ e.receiptHandle = "" := by simpa using hr
        by_cases hd : deleteFails e.receiptHandle
        · simp [hs, hr', hrne, hd]
        · simp [hs, hr', hrne, hd]

theorem retryFailedLoop_spec (found : FoundMap) (sendFails deleteFails : String → Bool)
    (now : String) (ids : List String) :
    (retryFailedLoop found sendFails deleteFails now ids).retriedEvents
        = ids.filter (isRetriedOutcome found sendFails deleteFails)
      ∧ (retryFailedLoop found sendFails deleteFails now ids).failedRetries
          = ids.filter (isFailedOutcome found sendFails deleteFails)
      ∧ (retryFailedLoop found sendFails deleteFails now ids).notFoundEvents
          = ids.filter (fun id => (mapGet found id).isNone)
      ∧ (retryFailedLoop found sendFails deleteFails now ids).mainQueue
          = ids.filterMap (pushedMessage found sendFails now)
      ∧ (retryFailedLoop found sendFails deleteFails now ids).deletedHandles
          = ids.filterMap (removedHandle found sendFails deleteFails)
      ∧ (retryFailedLoop found sendFails deleteFails now ids).trace
          = ids.flatMap
              (fun id => (processRetryOne found sendFails deleteFails now id).trace) := by
  induction ids with
  | nil => exact ⟨rfl, rfl, rfl, rfl, rfl, rfl⟩
  | cons id rest ih =>
      obtain ⟨h1, h2, h3, h4, h5⟩ := processRetryOne_spec found sendFails deleteFails now id
      obtain ⟨i1, i2, i3, i4, i5, i6⟩ := ih
      refine ⟨?_, ?_, ?_, ?_, ?_, ?_⟩
      · show (RetryAcc.append _ _).retriedEvents = _
        rw [RetryAcc.append, filter_cons_append]
        exact congrArg₂ _ h1 i1
      · show (RetryAcc.append _ _).failedRetries = _
        rw [RetryAcc.append, filter_cons_append]
        exact congrArg₂ _ h2 i2
      · show (RetryAcc.append _ _).notFoundEvents = _
        rw [RetryAcc.append, filter_cons_append]
        exact congrArg₂ _ h3 i3
      · show (RetryAcc.append _ _).mainQueue = _
        rw [RetryAcc.append, filterMap_cons_append]
        exact congrArg₂ _ h4 i4
      · show (RetryAcc.append _ _).deletedHandles = _
        rw [RetryAcc.append, filterMap_cons_append]
        exact congrArg₂ _ h5 i5
      · show (RetryAcc.append _ _).trace = _
        rw [RetryAcc.append, List.flatMap_cons]
        exact congrArg₂ _ rfl i6

theorem mapSet_keyinv (m : FoundMap) (k : String) (v : DlqEntry)
    (hm : ∀ p ∈ m, p.2.eventId = p.1) (hv : v.eventId = k) :
    ∀ p ∈ mapSet m k v, p.2.eventId = p.1 := by
  intro p hp
  unfold mapSet at hp
  by_cases h : m.any (fun p => p.1 == k)
  · rw [if_pos h] at hp
    obtain ⟨q, hq, hqp⟩ := List.mem_map.mp hp
    by_cases hk : q.1 == k
    · rw [if_pos hk] at hqp
      rw [← hqp]
      exact hv
    · rw [if_neg hk] at hqp
      rw [← hqp]
      exact hm q hq
  · rw [if_neg h] at hp
    rcases List.mem_append.mp hp with h1 | h2
    · exact hm p h1
    · simp only [List.mem_singleton] at h2
      rw [h2]
      exact hv

theorem scanPage_keyinv (eventIds : List String) (msgs : List DlqEntry) :
    ∀ (found : FoundMap), (∀ p ∈ found, p.2.eventId = p.1) →
      ∀ p ∈ scanPage eventIds found msgs, p.2.eventId = p.1 := by
  induction msgs with
  | nil => intro found h p hp; exact h p hp
  | cons msg rest ih =>
      intro found h p hp
      rw [scanPage, List.foldl_cons] at hp
      by_cases hc : eventIds.contains msg.eventId
      · rw [if_pos hc] at hp
        exact ih (mapSet found msg.eventId msg)
          (mapSet_keyinv found msg.eventId msg h rfl) p hp
      · rw [if_neg hc] at hp
        exact ih found h p hp

theorem pollGo_keyinv (dlq : List DlqEntry) (eventIds : List String) :
    ∀ (fuel attempt : Nat) (found : FoundMap) (receives : Nat),
      (∀ p ∈ found, p.2.eventId = p.1) →
      ∀ p ∈ (pollGo dlq eventIds fuel attempt found receives).1, p.2.eventId = p.1 := by
  intro fuel
  induction fuel with
  | zero =>
      intro attempt found receives h p hp
      simp only [pollGo] at hp
      exact h p hp
  | succ fuel ih =>
      intro attempt found receives h p hp
      simp only [pollGo] at hp
      by_cases hcond : found.length < eventIds.length
      · rw [if_pos hcond] at hp
        by_cases he : (receivePage dlq attempt).isEmpty
        · rw [if_pos he] at hp
          exact h p hp
        · rw [if_neg he] at hp
          exact ih (attempt + 1) (scanPage eventIds found (receivePage dlq attempt))
            (receives + 1) (scanPage_keyinv eventIds (receivePage dlq attempt) found h) p hp
      · rw [if_neg hcond] at hp
        exact h p hp

theorem pollDlq_keyinv (dlq : List DlqEntry) (eventIds : List String) :
    ∀ p ∈ (pollDlq dlq eventIds).1, p.2.eventId = p.1 :=
  pollGo_keyinv dlq eventIds maxReceiveAttempts 0 [] 0 (by simp)

theorem mapGet_eventId (found : FoundMap) (id : String) (e : DlqEntry)
    (hinv : ∀ p ∈ found, p.2.eventId = p.1) (h : mapGet found id = some e) :
    e.eventId = id := by
  unfold mapGet at h
  cases hf : found.find? (fun p => p.1 == id) with
  | none =>
      rw [hf] at h
      exact absurd h (by simp)
  | some q =>
      rw [hf] at h
      have h2 : q.2 = e := by simpa using h
      have hq := List.find?_some hf
      have hq' : q.1 = id := by simpa using hq
      have hqm := List.mem_of_find?_eq_some hf
      rw [← h2, hinv q hqm, hq']

theorem outcome_partition (found : FoundMap) (sendFails deleteFails : String → Bool)
    (id : String) :
    (isRetriedOutcome found sendFails deleteFails id).toNat
        + (isFailedOutcome found sendFails deleteFails id).toNat
        + ((mapGet found id).isNone).toNat = 1 := by
  unfold isRetriedOutcome isFailedOutcome
  rcases hm : mapGet found id with _ | e
  · simp
  · simp only [Option.isNone_some]
    by_cases hs : sendFails id
    · simp [hs]
    · by_cases hr : e.receiptHandle == ""
      · have hr' : (e.receiptHandle != "") = false := by simp_all
        simp [hs, hr, hr']
      · have hr' : (e.receiptHandle != "") = true := by simp_all
        by_cases hd : deleteFails e.receiptHandle
        · simp [hs, hr, hr', hd]
        · simp [hs, hr, hr', hd]

theorem count_filter_partition {α : Type} [DecidableEq α] (l : List α) (a : α)
    (p q r : α → Bool) (hnd : l.Nodup) (ha : a ∈ l)
    (hsum : (p a).toNat + (q a).toNat + (r a).toNat = 1) :
    (l.filter p).count a + (l.filter q).count a + (l.filter r).count a = 1 := by
  have hcount : l.count a = 1 := List.count_eq_one_of_mem hnd ha
  have hc : ∀ s : α → Bool, (l.filter s).count a = if s a then 1 else 0 := by
    intro s
    by_cases hs : s a
    · rw [if_pos hs, List.count_filter hs, hcount]
    · rw [if_neg hs, List.count_eq_zero]
      intro hmem
      exact hs ((List.mem_filter.mp hmem).2)
  rw [hc p, hc q, hc r]
  by_cases h1 : p a <;> by_cases h2 : q a <;> by_cases h3 : r a <;> simp_all

theorem processRetryOne_trace_actId (found : FoundMap)
    (sendFails deleteFails : String → Bool) (now : String) (id : String) :
    ∀ a ∈ (processRetryOne found sendFails deleteFails now id).trace, a.actId = id := by
  unfold processRetryOne
  rcases hm : mapGet found id with _ | e
  · simp
  · by_cases hs : sendFails id
    · simp [hs, SqsAct.actId]
    · by_cases hr : e.receiptHandle != ""
      · by_cases hd : deleteFails e.receiptHandle
        · simp [hs, hr, hd, SqsAct.actId]
        · simp [hs, hr, hd, SqsAct.actId]
      · simp [hs, hr, SqsAct.actId]

theorem processRetryOne_notFound_trace (found : FoundMap)
    (sendFails deleteFails : String → Bool) (now : String) (id : String)
    (h : mapGet found id = none) :
    (processRetryOne found sendFails deleteFails now id).trace = [] := by
  unfold processRetryOne
  rw [h]

/-- C4: for a redrive call on distinct requested event ids, every requested
id is reported in exactly one of retriedEvents, failedRetries,
notFoundEvents; an id is in notFoundEvents iff the bounded polling did not
find it, in which case no SQS side effect (send or delete) is performed
for it; for a found id whose send succeeded, the message pushed onto the
main transport preserves the original eventId, tenantId, eventType and
payload, carries the fresh timestamp, and has metadata equal to the
original metadata extended with retryAttempt = true and
originalFailureTime = the original message's timestamp; the id goes to
retriedEvents iff the push-then-remove sequence succeeded (a falsy receipt
handle skips the remove), and to failedRetries iff the send threw or the
attempted delete threw. -/
theorem c4_redrive_report (dlq : List DlqEntry) (sendFails deleteFails : String → Bool)
    (now : String) (eventIds : List String) (hnd : eventIds.Nodup)
    (id : String) (hid : id ∈ eventIds) :
    ((retryFailed dlq sendFails deleteFails now eventIds).1.retriedEvents
        ++ (retryFailed dlq sendFails deleteFails now eventIds).1.failedRetries
        ++ (retryFailed dlq sendFails deleteFails now eventIds).1.notFoundEvents).count id
        = 1
      ∧ (id ∈ (retryFailed dlq sendFails deleteFails now eventIds).1.notFoundEvents ↔
          mapGet (pollDlq dlq eventIds).1 id = none)
      ∧ (mapGet (pollDlq dlq eventIds).1 id = none →
          ∀ a ∈ (retryFailed dlq sendFails deleteFails now eventIds).1.trace,
            a.actId ≠ id)
      ∧ ∀ e, mapGet (pollDlq dlq eventIds).1 id = some e →
          ((sendFails id = false → retryMessage e now
              ∈ (retryFailed dlq sendFails deleteFails now eventIds).1.mainQueue)
            ∧ (retryMessage e now).eventId = e.eventId
            ∧ (retryMessage e now).tenantId = e.tenantId
            ∧ (retryMessage e now).eventType = e.eventType
            ∧ (retryMessage e now).payload = e.payload
            ∧ (retryMessage e now).timestamp = now
            ∧ (retryMessage e now).metadata
                = jsObjSet (jsObjSet e.metadata "retryAttempt" (Json.jsbool true))
                    "originalFailureTime" (Json.str e.timestamp)
            ∧ (id ∈ (retryFailed dlq sendFails deleteFails now eventIds).1.retriedEvents ↔
                (sendFails id = false ∧
                  (e.receiptHandle = "" ∨ deleteFails e.receiptHandle = false)))
            ∧ (id ∈ (retryFailed dlq sendFails deleteFails now eventIds).1.failedRetries ↔
                (sendFails id = true ∨
                  (e.receiptHandle ≠ "" ∧ deleteFails e.receiptHandle = true)))) := by
  obtain ⟨r1, r2, r3, r4, r5, r6⟩ :=
    retryFailedLoop_spec (pollDlq dlq eventIds).1 sendFails deleteFails now eventIds
  have hret : (retryFailed dlq sendFails deleteFails now eventIds).1
      = retryFailedLoop (pollDlq dlq eventIds).1 sendFails deleteFails now eventIds := rfl
  refine ⟨?_, ?_, ?_, ?_⟩
  · rw [hret, r1, r2, r3, List.count_append, List.count_append]
    exact count_filter_partition eventIds id _ _ _ hnd hid
      (outcome_partition (pollDlq dlq eventIds).1 sendFails deleteFails id)
  · rw [hret, r3, List.mem_filter]
    constructor
    · intro h
      exact Option.isNone_iff_eq_none.mp h.2
    · intro h
      exact ⟨hid, Option.isNone_iff_eq_none.mpr h⟩
  · intro hnone a ha haid
    rw [hret, r6] at ha
    obtain ⟨id2, hid2, ha2⟩ := List.mem_flatMap.mp ha
    have hact := processRetryOne_trace_actId (pollDlq dlq eventIds).1 sendFails deleteFails
      now id2 a ha2
    have heq : id2 = id := hact.symm.trans haid
    subst heq
    rw [processRetryOne_notFound_trace _ _ _ now id2 hnone] at ha2
    exact absurd ha2 (List.not_mem_nil a)
  · intro e he
    refine ⟨?_, rfl, rfl, rfl, rfl, rfl, rfl, ?_, ?_⟩
    · intro hsf
      rw [hret, r4]
      exact List.mem_filterMap.mpr ⟨id, hid, by simp [pushedMessage, he, hsf]⟩
    · rw [hret, r1, List.mem_filter]
      simp [isRetriedOutcome, he, hid]
    · rw [hret, r2, List.mem_filter]
      simp [isFailedOutcome, he, hid]

/-- Dead-letter entry for event ev1 of tenant t1. -/
def c4E1 : DlqEntry :=
  ⟨"m1", "ev1", "t1", "pay.ok", Json.obj [], [("source", Json.str "api")],
    "2024-01-01T00:00:00Z", "rh1"⟩

/-- Dead-letter entry for event ev2 of tenant t1. -/
def c4E2 : DlqEntry :=
  ⟨"m2", "ev2", "t1", "ship.ok", Json.obj [], [], "2024-01-02T00:00:00Z", "rh2"⟩

/-- Dead-letter queue holding ev1 and ev2; ev3 is requested but absent. -/
def c4Dlq : List DlqEntry := [c4E1, c4E2]

/-- Requested ids for the redrive witness. -/
def c4Ids : List String := ["ev1", "ev2", "ev3"]

/-- No send throws in the witness scenario. -/
def c4Send : String → Bool := fun _ => false

/-- The delete of receipt handle rh2 throws in the witness scenario. -/
def c4Del : String → Bool := fun rh => rh == "rh2"

theorem c4_redrive_report_witness :
    ((retryFailed c4Dlq c4Send c4Del "2024-06-01T00:00:00Z" c4Ids).1.retriedEvents
        ++ (retryFailed c4Dlq c4Send c4Del "2024-06-01T00:00:00Z" c4Ids).1.failedRetries
        ++ (retryFailed c4Dlq c4Send c4Del "2024-06-01T00:00:00Z" c4Ids).1.notFoundEvents).count
        "ev1" = 1
      ∧ ("ev1" ∈ (retryFailed c4Dlq c4Send c4Del "2024-06-01T00:00:00Z" c4Ids).1.notFoundEvents
          ↔ mapGet (pollDlq c4Dlq c4Ids).1 "ev1" = none)
      ∧ (mapGet (pollDlq c4Dlq c4Ids).1 "ev1" = none →
          ∀ a ∈ (retryFailed c4Dlq c4Send c4Del "2024-06-01T00:00:00Z" c4Ids).1.trace,
            a.actId ≠ "ev1")
      ∧ ∀ e, mapGet (pollDlq c4Dlq c4Ids).1 "ev1" = some e →
          ((c4Send "ev1" = false → retryMessage e "2024-06-01T00:00:00Z"
              ∈ (retryFailed c4Dlq c4Send c4Del "2024-06-01T00:00:00Z" c4Ids).1.mainQueue)
            ∧ (retryMessage e "2024-06-01T00:00:00Z").eventId = e.eventId
            ∧ (retryMessage e "2024-06-01T00:00:00Z").tenantId = e.tenantId
            ∧ (retryMessage e "2024-06-01T00:00:00Z").eventType = e.eventType
            ∧ (retryMessage e "2024-06-01T00:00:00Z").payload = e.payload
            ∧ (retryMessage e "2024-06-01T00:00:00Z").timestamp = "2024-06-01T00:00:00Z"
            ∧ (retryMessage e "2024-06-01T00:00:00Z").metadata
                = jsObjSet (jsObjSet e.metadata "retryAttempt" (Json.jsbool true))
                    "originalFailureTime" (Json.str e.timestamp)
            ∧ ("ev1" ∈ (retryFailed c4Dlq c4Send c4Del "2024-06-01T00:00:00Z"
                  c4Ids).1.retriedEvents ↔
                (c4Send "ev1" = false ∧
                  (e.receiptHandle = "" ∨ c4Del e.receiptHandle = false)))
            ∧ ("ev1" ∈ (retryFailed c4Dlq c4Send c4Del "2024-06-01T00:00:00Z"
                  c4Ids).1.failedRetries ↔
                (c4Send "ev1" = true ∨
                  (e.receiptHandle ≠ "" ∧ c4Del e.receiptHandle = true)))) :=
  c4_redrive_report c4Dlq c4Send c4Del "2024-06-01T00:00:00Z" c4Ids (by decide) "ev1"
    (by decide)

theorem retryLoop_del_after_send (found : FoundMap) (sendFails deleteFails : String → Bool)
    (now : String) :
    ∀ (ids : List String) (pre post : List SqsAct) (did rh : String) (ok : Bool),
      (retryFailedLoop found sendFails deleteFails now ids).trace
          = pre ++ SqsAct.del did rh ok :: post →
      ∃ msg, SqsAct.send did msg true ∈ pre := by
  intro ids
  induction ids with
  | nil =>
      intro pre post did rh ok h
      exact absurd h (by simp [retryFailedLoop])
  | cons id rest ih =>
      intro pre post did rh ok h
      have hloop : (retryFailedLoop found sendFails deleteFails now (id :: rest)).trace
          = (processRetryOne found sendFails deleteFails now id).trace
            ++ (retryFailedLoop found sendFails deleteFails now rest).trace := rfl
      rw [hloop] at h
      rcases hm : mapGet found id with _ | e
      · have hB : (processRetryOne found sendFails deleteFails now id).trace = [] :=
          processRetryOne_notFound_trace found sendFails deleteFails now id hm
        rw [hB, List.nil_append] at h
        exact ih pre post did rh ok h
      · by_cases hs : sendFails id
        · have hB : (processRetryOne found sendFails deleteFails now id).trace
              = [SqsAct.send id (retryMessage e now) false] := by
            simp [processRetryOne, hm, hs]
          rw [hB, List.cons_append, List.nil_append] at h
          cases pre with
          | nil =>
              rw [List.nil_append] at h
              injection h with h1 h2
              simp at h1
          | cons x pre2 =>
              rw [List.cons_append] at h
              injection h with h1 h2
              obtain ⟨msg, hmem⟩ := ih pre2 post did rh ok h2
              exact ⟨msg, List.mem_cons_of_mem x hmem⟩
        · by_cases hr : e.receiptHandle != ""
          · by_cases hd : deleteFails e.receiptHandle
            · have hB : (processRetryOne found sendFails deleteFails now id).trace
                  = [SqsAct.send id (retryMessage e now) true,
                      SqsAct.del id e.receiptHandle false] := by
                simp [processRetryOne, hm, hs, hr, hd]
              rw [hB, List.cons_append, List.cons_append, List.nil_append] at h
              cases pre with
              | nil =>
                  rw [List.nil_append] at h
                  injection h with h1 h2
                  simp at h1
              | cons x pre2 =>
                  rw [List.cons_append] at h
                  injection h with h1 h2
                  cases pre2 with
                  | nil =>
                      rw [List.nil_append] at h2
                      injection h2 with h3 h4
                      injection h3 with hdi hrh hok
                      refine ⟨retryMessage e now, ?_⟩
                      rw [← h1, hdi]
                      exact List.mem_singleton.mpr rfl
                  | cons y pre3 =>
                      rw [List.cons_append] at h2
                      injection h2 with h3 h4
                      obtain ⟨msg, hmem⟩ := ih pre3 post did rh ok h4
                      exact ⟨msg, List.mem_cons_of_mem x (List.mem_cons_of_mem y hmem)⟩
            · have hB : (processRetryOne found sendFails deleteFails now id).trace
                  = [SqsAct.send id (retryMessage e now) true,
                      SqsAct.del id e.receiptHandle true] := by
                simp [processRetryOne, hm, hs, hr, hd]
              rw [hB, List.cons_append, List.cons_append, List.nil_append] at h
              cases pre with
              | nil =>
                  rw [List.nil_append] at h
                  injection h with h1 h2
                  simp at h1
              | cons x pre2 =>
                  rw [List.cons_append] at h
                  injection h with h1 h2
                  cases pre2 with
                  | nil =>
                      rw [List.nil_append] at h2
                      injection h2 with h3 h4
                      injection h3 with hdi hrh hok
                      refine ⟨retryMessage e now, ?_⟩
                      rw [← h1, hdi]
                      exact List.mem_singleton.mpr rfl
                  | cons y pre3 =>
                      rw [List.cons_append] at h2
                      injection h2 with h3 h4
                      obtain ⟨msg, hmem⟩ := ih pre3 post did rh ok h4
                      exact ⟨msg, List.mem_cons_of_mem x (List.mem_cons_of_mem y hmem)⟩
          · have hB : (processRetryOne found sendFails deleteFails now id).trace
                = [SqsAct.send id (retryMessage e now) true] := by
              simp [processRetryOne, hm, hs, hr]
            rw [hB, List.cons_append, List.nil_append] at h
            cases pre with
            | nil =>
                rw [List.nil_append] at h
                injection h with h1 h2
                simp at h1
            | cons x pre2 =>
                rw [List.cons_append] at h
                injection h with h1 h2
                obtain ⟨msg, hmem⟩ := ih pre2 post did rh ok h2
                exact ⟨msg, List.mem_cons_of_mem x hmem⟩

theorem retryFailed_deleted_requeued (dlq : List DlqEntry)
    (sendFails deleteFails : String → Bool) (now : String) (ids : List String) :
    ∀ rh ∈ (retryFailed dlq sendFails deleteFails now ids).1.deletedHandles,
      ∃ id e, mapGet (pollDlq dlq ids).1 id = some e ∧ e.receiptHandle = rh
        ∧ retryMessage e now ∈ (retryFailed dlq sendFails deleteFails now ids).1.mainQueue := by
  obtain ⟨r1, r2, r3, r4, r5, r6⟩ :=
    retryFailedLoop_spec (pollDlq dlq ids).1 sendFails deleteFails now ids
  have hret : (retryFailed dlq sendFails deleteFails now ids).1
      = retryFailedLoop (pollDlq dlq ids).1 sendFails deleteFails now ids := rfl
  intro rh hrh
  rw [hret, r5] at hrh
  obtain ⟨id, hid, hrid⟩ := List.mem_filterMap.mp hrh
  rcases he : mapGet (pollDlq dlq ids).1 id with _ | e
  · simp [removedHandle, he] at hrid
  · simp only [removedHandle, he] at hrid
    by_cases hc : (!sendFails id && (e.receiptHandle != "" && !deleteFails e.receiptHandle))
      = true
    · rw [if_pos hc] at hrid
      have hrh' : e.receiptHandle = rh := by simpa using hrid
      have hsf : sendFails id = false := by
        simp only [Bool.and_eq_true, Bool.not_eq_true'] at hc
        exact hc.1
      refine ⟨id, e, he, hrh', ?_⟩
      rw [hret, r4]
      exact List.mem_filterMap.mpr ⟨id, hid, by simp [pushedMessage, he, hsf]⟩
    · rw [if_neg hc] at hrid
      exact absurd hrid (by simp)

/-- C5: a dead-letter entry is never removed before its reconstructed event
reached the main transport.  In the SQS side-effect trace of any redrive
execution, every delete action is preceded by a successful send of the
same event's reconstructed message; consequently every receipt handle
removed from the dead-letter queue belongs to a found entry whose retry
message is on the main queue — no reachable outcome has an event removed
from the dead set but never requeued. -/
theorem c5_delete_only_after_send (dlq : List DlqEntry)
    (sendFails deleteFails : String → Bool) (now : String) (eventIds : List String) :
    (∀ (pre post : List SqsAct) (did rh : String) (ok : Bool),
        (retryFailed dlq sendFails deleteFails now eventIds).1.trace
            = pre ++ SqsAct.del did rh ok :: post →
        ∃ msg, SqsAct.send did msg true ∈ pre)
      ∧ ∀ rh ∈ (retryFailed dlq sendFails deleteFails now eventIds).1.deletedHandles,
          ∃ id e, mapGet (pollDlq dlq eventIds).1 id = some e ∧ e.receiptHandle = rh
            ∧ retryMessage e now
                ∈ (retryFailed dlq sendFails deleteFails now eventIds).1.mainQueue :=
  ⟨fun pre post did rh ok h =>
    retryLoop_del_after_send (pollDlq dlq eventIds).1 sendFails deleteFails now eventIds
      pre post did rh ok h,
    retryFailed_deleted_requeued dlq sendFails deleteFails now eventIds⟩

theorem c5_delete_only_after_send_witness :
    (∃ msg, SqsAct.send "ev1" msg true
        ∈ [SqsAct.send "ev1" (retryMessage c4E1 "2024-06-01T00:00:00Z") true])
      ∧ ∃ id e, mapGet (pollDlq [c4E1] ["ev1"]).1 id = some e ∧ e.receiptHandle = "rh1"
          ∧ retryMessage e "2024-06-01T00:00:00Z"
              ∈ (retryFailed [c4E1] (fun _ => false) (fun _ => false)
                  "2024-06-01T00:00:00Z" ["ev1"]).1.mainQueue :=
  ⟨(c5_delete_only_after_send [c4E1] (fun _ => false) (fun _ => false)
      "2024-06-01T00:00:00Z" ["ev1"]).1
      [SqsAct.send "ev1" (retryMessage c4E1 "2024-06-01T00:00:00Z") true] []
      "ev1" "rh1" true rfl,
    (c5_delete_only_after_send [c4E1] (fun _ => false) (fun _ => false)
      "2024-06-01T00:00:00Z" ["ev1"]).2 "rh1"
      (by rw [show (retryFailed [c4E1] (fun _ => false) (fun _ => false)
          "2024-06-01T00:00:00Z" ["ev1"]).1.deletedHandles = ["rh1"] from rfl]
          exact List.mem_singleton.mpr rfl)⟩
